import Mathlib

/-!
Verification of the visual regression comparison engine of the Omnizia
repository.  The development shallowly embeds the image normalization
(padding), pixel diffing, per-target task/retry logic, result aggregation
and the bounded-concurrency scheduler found in

  - src/tests/visual-compare/compare_optimized.ts  (three script variants),
  - src/tests/visual-compare/compare.ts,
  - src/tests/visual-compare/compare-screenshots.ts,

and proves or refutes the specification's claims about them.
-/

namespace VisualCompare

/-- A decoded RGBA bitmap (spec section 3, RawImage).  The byte buffer is
embedded as a function from byte index to byte value; every image handled by
the code comes out of a decoder or out of a pad, so its buffer length is
`width * height * 4` (the spec's RawImage invariant), which is how buffer
lengths are computed below. -/
structure ImageData where
  width : Nat
  height : Nat
  data : Nat → Nat

/-- The byte length of an image buffer, `width * height * 4`, valid for every
decoded or padded image by the RawImage invariant. -/
def ImageData.byteLength (img : ImageData) : Nat :=
  img.width * img.height * 4

/-- Embedding of padImage from compare_optimized.ts (first variant, lines
163-203): if the dimensions already match the image is returned unchanged;
otherwise a fresh buffer is filled with opaque white (255 in every channel)
and the source is copied at the top-left anchor.  The double loop writes
destination index `(targetWidth*y + x)*4 + c` for `y < img.height`,
`x < img.width` (guarded by `x < targetWidth && y < targetHeight`); decoding
a byte index back to `(x, y, c)` therefore gives the source byte inside the
copied region and 255 elsewhere. -/
def padImage (img : ImageData) (targetWidth targetHeight : Nat) : ImageData :=
  if img.width = targetWidth ∧ img.height = targetHeight then img
  else
    { width := targetWidth, height := targetHeight,
      data := fun idx =>
        let x := (idx / 4) % targetWidth
        let y := (idx / 4) / targetWidth
        let c := idx % 4
        if x < img.width ∧ y < img.height then
          img.data ((img.width * y + x) * 4 + c)
        else 255 }

/-- Embedding of padImage from compare.ts (lines 230-251).  This variant has
no early return and no white fill: the buffer comes from
`new PNG({ width, height, fill: true })`, which pngjs zero-fills, and the
source is then copied at a centered anchor
`ox = floor((targetWidth - width)/2)`, `oy = floor((targetHeight - height)/2)`.
Pixels outside the copied region keep the value 0 in every channel.  The
functional form is faithful for `targetWidth >= width` and
`targetHeight >= height`, the only regime the spec's pad contract admits
(section 4.1: target dimensions must be at least the image dimensions). -/
def padImageTS (img : ImageData) (targetWidth targetHeight : Nat) : ImageData :=
  let ox := (targetWidth - img.width) / 2
  let oy := (targetHeight - img.height) / 2
  { width := targetWidth, height := targetHeight,
    data := fun idx =>
      let x := (idx / 4) % targetWidth
      let y := (idx / 4) / targetWidth
      let c := idx % 4
      if ox ≤ x ∧ x < ox + img.width ∧ oy ≤ y ∧ y < oy + img.height then
        img.data ((img.width * (y - oy) + (x - ox)) * 4 + c)
      else 0 }

/-- Embedding of padImage from compare-screenshots.ts (lines 57-85): early
return when the dimensions match, otherwise a buffer allocated with
`Buffer.alloc(targetWidth*targetHeight*4, 255)` (opaque white) and the source
copied at the centered anchor.  Faithful for target dimensions at least the
source dimensions, as for padImageTS. -/
def padImageCS (img : ImageData) (targetWidth targetHeight : Nat) : ImageData :=
  if img.width = targetWidth ∧ img.height = targetHeight then img
  else
    let ox := (targetWidth - img.width) / 2
    let oy := (targetHeight - img.height) / 2
    { width := targetWidth, height := targetHeight,
      data := fun idx =>
        let x := (idx / 4) % targetWidth
        let y := (idx / 4) / targetWidth
        let c := idx % 4
        if ox ≤ x ∧ x < ox + img.width ∧ oy ≤ y ∧ y < oy + img.height then
          img.data ((img.width * (y - oy) + (x - ox)) * 4 + c)
        else 255 }

/-- Modelled from the spec: the Pixel Differ (spec section 4.2) is the
external pixelmatch library, which is not part of src/.  Following the
spec's words, a pixel counts as different when some per-channel color
distance exceeds the tolerance derived from the threshold (a perceptual
sensitivity in [0,1] scaled to the 0-255 channel range). -/
def pixelDiffers (A B : ImageData) (t : ℚ) (p : Nat) : Bool :=
  (List.range 4).any fun c =>
    decide (t * 255 < |((A.data (p * 4 + c) : ℚ)) - ((B.data (p * 4 + c) : ℚ))|)

/-- Modelled from the spec: the differing-pixel count of the Pixel Differ
(spec section 4.2), the exact number of pixel positions classified as
different. -/
def pmCount (A B : ImageData) (w h : Nat) (t : ℚ) : Nat :=
  (List.range (w * h)).countP fun p => pixelDiffers A B t p

/-- Modelled from the spec: the differ's dimension precondition (spec section
4.2, DimensionMismatch) as enforced by the external pixelmatch library's
entry checks: it throws when the two operand buffers have different lengths,
or when the buffer length disagrees with `width*height*4`.  Buffer lengths
are computed through the RawImage invariant. -/
def pixelmatchChecked (A B : ImageData) (w h : Nat) (t : ℚ) : Except String Nat :=
  if A.byteLength ≠ B.byteLength then .error "Image sizes do not match."
  else if A.byteLength ≠ w * h * 4 then .error "Image data size does not match width/height."
  else .ok (pmCount A B w h t)

/-- Decoding a flat RGBA byte index `(W*y + x)*4 + c` back into its column,
row and channel. -/
theorem idx_decode (W y x c : Nat) (hx : x < W) (hc : c < 4) :
    (((W * y + x) * 4 + c) / 4) % W = x ∧
    (((W * y + x) * 4 + c) / 4) / W = y ∧
    ((W * y + x) * 4 + c) % 4 = c := by
  have h4 : (0:Nat) < 4 := by omega
  have hW : 0 < W := by omega
  have hdiv : ((W * y + x) * 4 + c) / 4 = W * y + x := by
    rw [Nat.mul_comm (W * y + x) 4, Nat.mul_add_div h4]
    omega
  refine ⟨?_, ?_, ?_⟩
  · rw [hdiv, Nat.mul_add_mod, Nat.mod_eq_of_lt hx]
  · rw [hdiv, Nat.mul_add_div hW, Nat.div_eq_of_lt hx]
    omega
  · rw [Nat.mul_comm (W * y + x) 4, Nat.add_comm, Nat.add_mul_mod_self_left,
      Nat.mod_eq_of_lt hc]

/-- Embedding of compareScreenshots from compare_optimized.ts (first variant,
lines 205-236): both decoded images (the sharp/pngjs decode is the input
here) are padded to the elementwise maximum of their dimensions and then
handed to pixelmatch with threshold 0.1.  The function has no catch of its
own; an error from the pixelmatch checks would propagate to the task's retry
loop, hence the Except result. -/
def compareScreenshotsOpt (img1 img2 : ImageData) : Except String Nat :=
  let width := max img1.width img2.width
  let height := max img1.height img2.height
  let p1 := padImage img1 width height
  let p2 := padImage img2 width height
  pixelmatchChecked p1 p2 width height (1/10)

/-- Outcome record of compareScreenshots in compare.ts. -/
structure TSCmp where
  isDifferent : Bool
  diffPixels : Nat
deriving DecidableEq, Repr

/-- Embedding of compareScreenshots from compare.ts (lines 253-291).  The two
inputs stand for the results of decoding the two screenshot files (an
`Except.error` is a decode failure).  Note that this variant computes the
elementwise-maximum dimensions but never calls its padImage: the raw decoded
buffers are passed to pixelmatch together with the maximum dimensions.  Any
thrown error is swallowed by the catch, which returns
`isDifferent = true, diffPixels = 0`. -/
def compareScreenshotsTS (dev prod : Except String ImageData) : TSCmp :=
  match dev, prod with
  | .ok img1, .ok img2 =>
    let width := max img1.width img2.width
    let height := max img1.height img2.height
    match pixelmatchChecked img1 img2 width height (1/10) with
    | .ok diffPixels => { isDifferent := decide (0 < diffPixels), diffPixels := diffPixels }
    | .error _ => { isDifferent := true, diffPixels := 0 }
  | _, _ => { isDifferent := true, diffPixels := 0 }

/-- JavaScript number values taken by the diffPixels field of
compare-screenshots.ts: a non-negative integer on the success path, Infinity
in the error branch. -/
inductive JSNum where
  | num (n : Nat)
  | inf
deriving DecidableEq, Repr

/-- Outcome record of compareScreenshots in compare-screenshots.ts. -/
structure CSCmp where
  isDifferent : Bool
  diffPixels : JSNum
deriving DecidableEq, Repr

/-- Embedding of compareScreenshots from compare-screenshots.ts (lines
101-137): decode both images (readImage; an `Except.error` input is a
readImage failure such as an unsupported format), pad both to the
elementwise-maximum dimensions with the centered white pad, run pixelmatch
at threshold 0.1, and set `isDifferent := diffPixels > 0`.  On any error the
catch resolves with `isDifferent = true, diffPixels = Infinity`. -/
def compareScreenshotsCS (dev prod : Except String ImageData) : CSCmp :=
  match dev, prod with
  | .ok img1, .ok img2 =>
    let maxWidth := max img1.width img2.width
    let maxHeight := max img1.height img2.height
    let padded1 := padImageCS img1 maxWidth maxHeight
    let padded2 := padImageCS img2 maxWidth maxHeight
    match pixelmatchChecked padded1 padded2 maxWidth maxHeight (1/10) with
    | .ok diffPixels => { isDifferent := decide (0 < diffPixels), diffPixels := .num diffPixels }
    | .error _ => { isDifferent := true, diffPixels := .inf }
  | _, _ => { isDifferent := true, diffPixels := .inf }

/-- Whether a character matches the regex word class `\w` used by
`urlPath.replace(/\W+/g, '_')` in compare_optimized.ts. -/
def isWordChar (c : Char) : Bool :=
  c.isAlphanum || c = '_'

/-- Character-list core of cleanName: each maximal run of non-word characters
is replaced by a single underscore (the regex `/\W+/g`). -/
def cleanChars : List Char → List Char
  | [] => []
  | c :: cs =>
    if isWordChar c then c :: cleanChars cs
    else '_' :: cleanChars (cs.dropWhile fun d => !isWordChar d)
termination_by l => l.length
decreasing_by
  · simp only [List.length_cons]; omega
  · have hdw : (cs.dropWhile fun d => !isWordChar d).length ≤ cs.length :=
      List.Sublist.length_le (List.dropWhile_sublist _)
    simp only [List.length_cons]; omega

/-- Embedding of the slug `urlPath.replace(/\W+/g, '_')` from
compare_optimized.ts. -/
def cleanName (s : String) : String :=
  String.mk (cleanChars s.data)

/-- The ComparisonResult record built by the task in compare_optimized.ts
(first variant, lines 499-507).  The source field named `match` is a Lean
keyword and is rendered here as `isMatch`. -/
structure OptComparisonResult where
  url : String
  isMatch : Bool
  diffPixels : Nat
  devPath : String
  prodPath : String
  diffPath : String
  duration : ℚ
deriving DecidableEq, Repr

/-- Outcome of one attempt of the capture-and-compare cycle inside the retry
loop of compare_optimized.ts: either every step (two captures and the
comparison) succeeded, yielding a pixel count and a task duration, or some
step threw. -/
inductive TaskAttempt where
  | ok (numDiffPixels : Nat) (duration : ℚ)
  | err
deriving DecidableEq, Repr

/-- The result record construction of compare_optimized.ts, lines 499-507:
`match: numDiffPixels === 0`, artifact paths derived from the slug, and the
wall-clock duration. -/
def mkOptResult (urlPath : String) (numDiffPixels : Nat) (duration : ℚ) :
    OptComparisonResult :=
  { url := urlPath
    isMatch := decide (numDiffPixels = 0)
    diffPixels := numDiffPixels
    devPath := "screenshots/dev/" ++ cleanName urlPath ++ ".jpg"
    prodPath := "screenshots/prod/" ++ cleanName urlPath ++ ".jpg"
    diffPath := "screenshots/diff/" ++ cleanName urlPath ++ "_diff.jpg"
    duration := duration }

/-- Embedding of the retry loop of one task in compare_optimized.ts (lines
491-514; the second variant, lines 949-972, is identical in structure): up to
3 attempts; the first successful attempt returns the result record; when the
third attempt also fails, the task returns null (here `none`), carrying no
error. -/
def taskRun (urlPath : String) (a1 a2 a3 : TaskAttempt) : Option OptComparisonResult :=
  match a1 with
  | .ok n d => some (mkOptResult urlPath n d)
  | .err =>
    match a2 with
    | .ok n d => some (mkOptResult urlPath n d)
    | .err =>
      match a3 with
      | .ok n d => some (mkOptResult urlPath n d)
      | .err => none

/-- Embedding of the results line of main in compare_optimized.ts (line 517;
second variant line 975-977):
`(await runWithConcurrencyLimit(tasks, concurrency)).filter(Boolean)`.
The scheduler returns one entry per task in input order (proved below about
schedResults); the filter then drops every null, i.e. every target whose
three attempts all failed.  The oracle gives each url the outcomes of its
three attempts. -/
def mainResults (urls : List String) (oracle : String → TaskAttempt × TaskAttempt × TaskAttempt) :
    List OptComparisonResult :=
  (urls.map fun u => taskRun u (oracle u).1 (oracle u).2.1 (oracle u).2.2).reduceOption

/-- JavaScript number values arising in the duration summary of
compare_optimized.ts: an ordinary (rational-valued) number, NaN, or a signed
infinity. -/
inductive JSVal where
  | num (q : ℚ)
  | nan
  | inf
  | ninf
deriving DecidableEq, Repr

/-- JavaScript division on these values: division by zero yields NaN for
0/0 and a signed infinity otherwise; all other divisions are exact rational
divisions. -/
def jsDiv (a b : ℚ) : JSVal :=
  if b = 0 then
    if a = 0 then .nan else if 0 < a then .inf else .ninf
  else .num (a / b)

/-- Embedding of the average-duration line of main in compare_optimized.ts
(line 521; second variant line 981):
`results.reduce((sum, r) => sum + r.duration, 0) / results.length`. -/
def avgDuration (durations : List ℚ) : JSVal :=
  jsDiv durations.sum (durations.length : ℚ)

/-- The per-target ScreenshotResult record of compare.ts (lines 19-28).  The
`environment` field is always `'both'` for rows read from the CSV and is
omitted. -/
structure TSResult where
  url : String
  devPath : String
  prodPath : String
  diffPath : String
  isDifferent : Bool
  diffPixels : Nat
  error : Option String
deriving DecidableEq, Repr

/-- Embedding of the slug `url.replace(/[^a-z0-9]/gi, '_').toLowerCase()`
used for the diff file name in compare.ts (line 517): every character outside
the ASCII alphanumerics is replaced by an underscore, then the string is
lowercased. -/
def slugLower (s : String) : String :=
  String.mk (s.data.map fun c => if c.isAlphanum then c.toLower else '_')

/-- The screenshots directory of compare.ts's configuration. -/
def tsScreenshotDir : String := "./test-results/screenshots"

/-- The diff directory of compare.ts's configuration. -/
def tsDiffDir : String := "./test-results/diff"

/-- Embedding of the per-target processing of main in compare.ts (lines
469-532).  The collaborator outcomes are passed as oracles: whether
navigation succeeded for each environment (ensureLoggedInAndNavigate returns
a boolean and never throws), whether the screenshot capture succeeded (its
boolean return is ignored by the caller, but a failed capture leaves no file,
so the later existsSync checks see `nav && capture`), and the decode results
of the two screenshot files for the comparison.  `t1` and `t2` stand for the
two `Date.now()` timestamps in the file names.  The result starts as
`isDifferent = false, diffPixels = 0` with no error; a failed navigation
records an error string (appended for prod); the comparison runs only when
both screenshot files exist. -/
def processUrl (url : String) (t1 t2 : Nat)
    (devNavOk devCapOk prodNavOk prodCapOk : Bool)
    (devImg prodImg : Except String ImageData) : TSResult :=
  let devPath := tsScreenshotDir ++ "/dev_" ++ toString t1 ++ ".png"
  let devError : Option String :=
    if devNavOk then none else some "Failed to navigate to dev URL"
  let devShot : Bool := devNavOk && devCapOk
  let prodPath := tsScreenshotDir ++ "/prod_" ++ toString t2 ++ ".png"
  let prodError : Option String :=
    if prodNavOk then devError
    else
      match devError with
      | some e => some (e ++ "; Failed to navigate to prod URL")
      | none => some "Failed to navigate to prod URL"
  let prodShot : Bool := prodNavOk && prodCapOk
  if devShot && prodShot then
    let diffPath := tsDiffDir ++ "/diff-" ++ slugLower url ++ ".png"
    let cmp := compareScreenshotsTS devImg prodImg
    { url := url, devPath := devPath, prodPath := prodPath, diffPath := diffPath,
      isDifferent := cmp.isDifferent, diffPixels := cmp.diffPixels, error := prodError }
  else
    { url := url, devPath := devPath, prodPath := prodPath, diffPath := "",
      isDifferent := false, diffPixels := 0, error := prodError }

/-- Removal of the element at a position, the model of
`executing.splice(executing.indexOf(p), 1)` in runWithConcurrencyLimit. -/
def removeNth : List α → Nat → List α
  | [], _ => []
  | _ :: xs, 0 => xs
  | x :: xs, n + 1 => x :: removeNth xs n

theorem removeNth_length (l : List α) (i : Nat) (h : i < l.length) :
    (removeNth l i).length + 1 = l.length := by
  induction l generalizing i with
  | nil => simp at h
  | cons x xs ih =>
    cases i with
    | zero => simp [removeNth]
    | succ n =>
      simp only [removeNth, List.length_cons] at h ⊢
      rw [ih n (by omega)]

theorem removeNth_perm (l : List α) (i : Nat) (d : α) (h : i < l.length) :
    l.Perm (l.getD i d :: removeNth l i) := by
  induction l generalizing i with
  | nil => simp at h
  | cons x xs ih =>
    cases i with
    | zero => simp [removeNth]
    | succ n =>
      simp only [List.length_cons] at h
      have hperm := ih n (by omega)
      simp only [removeNth, List.getD_cons_succ]
      exact (hperm.cons x).trans (List.Perm.swap _ _ _)

/-- Drain phase of runWithConcurrencyLimit (compare_optimized.ts lines
431-450 and 892-908): after the dispatch loop, `Promise.all(results)` waits
for the remaining in-flight tasks; the completion oracle chooses which
executing task settles at each await point.  Each completion removes the
settled task from the executing pool (its then-handler splices it out) and
records its value.  The returned pair is the list of successive pools and
the final completion log. -/
def drainS (f : Nat → α) (oracle : Nat → Nat) (e : List Nat)
    (log : List (Nat × α)) (k : Nat) : List (List Nat) × List (Nat × α) :=
  match e with
  | [] => ([], log)
  | x :: xs =>
    let es := x :: xs
    let i := oracle k % es.length
    let id := es.getD i 0
    let e2 := removeNth es i
    let r := drainS f oracle e2 (log ++ [(id, f id)]) (k + 1)
    (e2 :: r.1, r.2)
termination_by e.length
decreasing_by
  have : oracle k % (x :: xs).length < (x :: xs).length :=
    Nat.mod_lt _ (by simp)
  have := removeNth_length (x :: xs) (oracle k % (x :: xs).length) this
  simp_all

/-- Embedding of the dispatch loop of runWithConcurrencyLimit
(compare_optimized.ts lines 431-450; second variant lines 892-908).  Tasks
are identified by their index; `f` gives the value each task's promise
resolves with.  For each task in order: start it (append to the executing
pool); when the pool size reaches the limit, `await Promise.race(executing)`
blocks until the completion oracle settles one executing task, whose handler
removes it from the pool and whose value is recorded in the completion log.
After the loop, drainS models the final `Promise.all`.  The first component
collects every successive executing pool (the pool after each dispatch and
after each completion); the second is the completion log. -/
def schedLoop (f : Nat → α) (limit : Nat) (oracle : Nat → Nat) :
    List Nat → List Nat → List (Nat × α) → Nat → List (List Nat) × List (Nat × α)
  | [], e, log, k => drainS f oracle e log k
  | t :: ts, e, log, k =>
    let e1 := e ++ [t]
    if limit ≤ e1.length then
      let i := oracle k % e1.length
      let id := e1.getD i 0
      let e2 := removeNth e1 i
      let r := schedLoop f limit oracle ts e2 (log ++ [(id, f id)]) (k + 1)
      (e1 :: e2 :: r.1, r.2)
    else
      let r := schedLoop f limit oracle ts e1 log k
      (e1 :: r.1, r.2)

/-- The trace of executing pools of a whole run over `n` tasks starting from
an empty pool. -/
def schedTrace (f : Nat → α) (n limit : Nat) (oracle : Nat → Nat) : List (List Nat) :=
  (schedLoop f limit oracle (List.range n) [] [] 0).1

/-- Reading one promise's settled value out of the completion log (the value
the i-th task's promise resolved with). -/
def lookupLog (i : Nat) : List (Nat × α) → Option α
  | [] => none
  | (j, v) :: rest => if j = i then some v else lookupLog i rest

/-- The list returned by `Promise.all(results)` in runWithConcurrencyLimit:
the promises were pushed in input order, so the i-th returned element is the
settled value of task i, read from the completion log of the run. -/
def schedResults (f : Nat → α) (n limit : Nat) (oracle : Nat → Nat) : List (Option α) :=
  (List.range n).map fun i =>
    lookupLog i (schedLoop f limit oracle (List.range n) [] [] 0).2

theorem drainS_nil (f : Nat → α) (oracle : Nat → Nat) (log : List (Nat × α)) (k : Nat) :
    drainS f oracle [] log k = ([], log) := by
  rw [drainS]

theorem drainS_cons (f : Nat → α) (oracle : Nat → Nat) (x : Nat) (xs : List Nat)
    (log : List (Nat × α)) (k : Nat) :
    drainS f oracle (x :: xs) log k =
      ((removeNth (x :: xs) (oracle k % (x :: xs).length)) ::
        (drainS f oracle (removeNth (x :: xs) (oracle k % (x :: xs).length))
          (log ++ [((x :: xs).getD (oracle k % (x :: xs).length) 0,
            f ((x :: xs).getD (oracle k % (x :: xs).length) 0))]) (k + 1)).1,
       (drainS f oracle (removeNth (x :: xs) (oracle k % (x :: xs).length))
          (log ++ [((x :: xs).getD (oracle k % (x :: xs).length) 0,
            f ((x :: xs).getD (oracle k % (x :: xs).length) 0))]) (k + 1)).2) := by
  rw [drainS]

/-- Every pool recorded during the drain phase is strictly smaller than the
pool the drain started from. -/
theorem drainS_pools_lt (f : Nat → α) (oracle : Nat → Nat) :
    ∀ (fuel : Nat) (e : List Nat), e.length ≤ fuel → ∀ (log : List (Nat × α)) (k : Nat),
      ∀ x ∈ (drainS f oracle e log k).1, x.length < e.length := by
  intro fuel
  induction fuel with
  | zero =>
    intro e he log k x hx
    have : e = [] := List.eq_nil_of_length_eq_zero (by omega)
    subst this
    simp [drainS_nil] at hx
  | succ m ih =>
    intro e he log k x hx
    match e with
    | [] => simp [drainS_nil] at hx
    | y :: ys =>
      rw [drainS_cons] at hx
      have hi : oracle k % (y :: ys).length < (y :: ys).length := Nat.mod_lt _ (by simp)
      have hlen := removeNth_length (y :: ys) (oracle k % (y :: ys).length) hi
      rcases List.mem_cons.mp hx with rfl | hx2
      · omega
      · have := ih (removeNth (y :: ys) (oracle k % (y :: ys).length))
          (by omega) _ _ x hx2
        omega

/-- The drain phase appends to the log exactly one completion per task left
in the pool: the appended entries' task ids are a permutation of the pool and
each entry carries its task's value. -/
theorem drainS_log (f : Nat → α) (oracle : Nat → Nat) :
    ∀ (fuel : Nat) (e : List Nat), e.length ≤ fuel → ∀ (log : List (Nat × α)) (k : Nat),
      ∃ tail, (drainS f oracle e log k).2 = log ++ tail ∧
        (tail.map Prod.fst).Perm e ∧ ∀ pr ∈ tail, pr.2 = f pr.1 := by
  intro fuel
  induction fuel with
  | zero =>
    intro e he log k
    have : e = [] := List.eq_nil_of_length_eq_zero (by omega)
    subst this
    exact ⟨[], by simp [drainS_nil], by simp, by simp⟩
  | succ m ih =>
    intro e he log k
    match e with
    | [] => exact ⟨[], by simp [drainS_nil], by simp, by simp⟩
    | y :: ys =>
      rw [drainS_cons]
      have hi : oracle k % (y :: ys).length < (y :: ys).length := Nat.mod_lt _ (by simp)
      have hlen := removeNth_length (y :: ys) (oracle k % (y :: ys).length) hi
      obtain ⟨tail, heq, hperm, hval⟩ := ih (removeNth (y :: ys) (oracle k % (y :: ys).length))
        (by omega)
        (log ++ [((y :: ys).getD (oracle k % (y :: ys).length) 0,
          f ((y :: ys).getD (oracle k % (y :: ys).length) 0))]) (k + 1)
      refine ⟨((y :: ys).getD (oracle k % (y :: ys).length) 0,
        f ((y :: ys).getD (oracle k % (y :: ys).length) 0)) :: tail, ?_, ?_, ?_⟩
      · simpa [List.append_assoc] using heq
      · simp only [List.map_cons]
        exact ((hperm.cons _).trans
          (removeNth_perm (y :: ys) (oracle k % (y :: ys).length) 0 hi).symm)
      · intro pr hpr
        rcases List.mem_cons.mp hpr with rfl | hpr2
        · rfl
        · exact hval pr hpr2

/-- Every executing pool recorded during a run whose loop was entered with a
pool strictly below the limit stays at or below the limit. -/
theorem schedLoop_pools_le (f : Nat → α) (limit : Nat) (oracle : Nat → Nat) :
    ∀ (pending e : List Nat) (log : List (Nat × α)) (k : Nat),
      e.length < limit →
      ∀ x ∈ (schedLoop f limit oracle pending e log k).1, x.length ≤ limit := by
  intro pending
  induction pending with
  | nil =>
    intro e log k he x hx
    have : (schedLoop f limit oracle [] e log k).1 = (drainS f oracle e log k).1 := rfl
    rw [this] at hx
    have := drainS_pools_lt f oracle e.length e (le_refl _) log k x hx
    omega
  | cons t ts ih =>
    intro e log k he x hx
    rw [schedLoop] at hx
    by_cases hlim : limit ≤ (e ++ [t]).length
    · simp only [hlim, if_true] at hx
      have hi : oracle k % (e ++ [t]).length < (e ++ [t]).length :=
        Nat.mod_lt _ (by simp)
      have hlen := removeNth_length (e ++ [t]) (oracle k % (e ++ [t]).length) hi
      have hfull : (e ++ [t]).length = e.length + 1 := by simp
      rcases List.mem_cons.mp hx with rfl | hx2
      · omega
      rcases List.mem_cons.mp hx2 with rfl | hx3
      · omega
      · exact ih _ _ _ (by omega) x hx3
    · simp only [hlim, if_false] at hx
      have hfull : (e ++ [t]).length = e.length + 1 := by simp
      rcases List.mem_cons.mp hx with rfl | hx2
      · omega
      · exact ih _ _ _ (by omega) x hx2

/-- A whole run appends to the log exactly one completion per task (pending
or already executing), each carrying its task's value. -/
theorem schedLoop_log (f : Nat → α) (limit : Nat) (oracle : Nat → Nat) :
    ∀ (pending e : List Nat) (log : List (Nat × α)) (k : Nat),
      ∃ tail, (schedLoop f limit oracle pending e log k).2 = log ++ tail ∧
        (tail.map Prod.fst).Perm (pending ++ e) ∧ ∀ pr ∈ tail, pr.2 = f pr.1 := by
  intro pending
  induction pending with
  | nil =>
    intro e log k
    obtain ⟨tail, heq, hperm, hval⟩ := drainS_log f oracle e.length e (le_refl _) log k
    exact ⟨tail, heq, by simpa using hperm, hval⟩
  | cons t ts ih =>
    intro e log k
    rw [schedLoop]
    by_cases hlim : limit ≤ (e ++ [t]).length
    · simp only [hlim, if_true]
      have hi : oracle k % (e ++ [t]).length < (e ++ [t]).length :=
        Nat.mod_lt _ (by simp)
      obtain ⟨tail, heq, hperm, hval⟩ :=
        ih (removeNth (e ++ [t]) (oracle k % (e ++ [t]).length))
          (log ++ [((e ++ [t]).getD (oracle k % (e ++ [t]).length) 0,
            f ((e ++ [t]).getD (oracle k % (e ++ [t]).length) 0))]) (k + 1)
      refine ⟨((e ++ [t]).getD (oracle k % (e ++ [t]).length) 0,
        f ((e ++ [t]).getD (oracle k % (e ++ [t]).length) 0)) :: tail,
        by simpa [List.append_assoc] using heq, ?_, ?_⟩
      · have hmid : (ts ++ ((e ++ [t]).getD (oracle k % (e ++ [t]).length) 0 ::
            removeNth (e ++ [t]) (oracle k % (e ++ [t]).length))).Perm
            ((e ++ [t]).getD (oracle k % (e ++ [t]).length) 0 ::
              (ts ++ removeNth (e ++ [t]) (oracle k % (e ++ [t]).length))) :=
          List.perm_middle
        have h1 := (hperm.cons ((e ++ [t]).getD (oracle k % (e ++ [t]).length) 0)).trans
          hmid.symm
        have h2 : (ts ++ ((e ++ [t]).getD (oracle k % (e ++ [t]).length) 0 ::
            removeNth (e ++ [t]) (oracle k % (e ++ [t]).length))).Perm (ts ++ (e ++ [t])) :=
          (removeNth_perm (e ++ [t]) (oracle k % (e ++ [t]).length) 0 hi).symm.append_left ts
        have h3 : (ts ++ (e ++ [t])).Perm (t :: (ts ++ e)) := by
          rw [← List.append_assoc]
          exact List.perm_append_singleton t (ts ++ e)
        simpa using (h1.trans h2).trans h3
      · intro pr hpr
        rcases List.mem_cons.mp hpr with rfl | hpr2
        · rfl
        · exact hval pr hpr2
    · simp only [hlim, if_false]
      obtain ⟨tail, heq, hperm, hval⟩ := ih (e ++ [t]) log k
      refine ⟨tail, heq, ?_, hval⟩
      have h3 : (ts ++ (e ++ [t])).Perm (t :: (ts ++ e)) := by
        rw [← List.append_assoc]
        exact List.perm_append_singleton t (ts ++ e)
      simpa using hperm.trans h3

/-- Reading the log at a task id present in it returns that task's value,
provided every log entry carries its own task's value. -/
theorem lookupLog_eq (f : Nat → α) (i : Nat) :
    ∀ log : List (Nat × α), (∀ pr ∈ log, pr.2 = f pr.1) →
      i ∈ log.map Prod.fst → lookupLog i log = some (f i) := by
  intro log
  induction log with
  | nil => intro _ h; simp at h
  | cons pr rest ih =>
    intro hval hmem
    obtain ⟨j, v⟩ := pr
    by_cases hj : j = i
    · subst hj
      have : v = f j := hval (j, v) (List.mem_cons_self _ _)
      simp [lookupLog, this]
    · have hmem2 : i ∈ rest.map Prod.fst := by
        simp only [List.map_cons, List.mem_cons] at hmem
        rcases hmem with h | h
        · exact absurd h.symm hj
        · exact h
      simp only [lookupLog, if_neg hj]
      exact ih (fun pr h => hval pr (List.mem_cons_of_mem _ h)) hmem2

/-- The dimensions of a padded image are always the target dimensions (the
early-return branch fires precisely when they already coincide). -/
theorem padImage_dims (img : ImageData) (tW tH : Nat) :
    (padImage img tW tH).width = tW ∧ (padImage img tW tH).height = tH := by
  unfold padImage
  by_cases h : img.width = tW ∧ img.height = tH
  · simp [h, h.1, h.2]
  · simp [h]

/-- The dimensions of the compare-screenshots.ts pad are always the target
dimensions. -/
theorem padImageCS_dims (img : ImageData) (tW tH : Nat) :
    (padImageCS img tW tH).width = tW ∧ (padImageCS img tW tH).height = tH := by
  unfold padImageCS
  by_cases h : img.width = tW ∧ img.height = tH
  · simp [h, h.1, h.2]
  · simp [h]

/-- On a self-comparison no pixel is classified as different, for every
non-negative threshold. -/
theorem pixelDiffers_self (A : ImageData) (t : ℚ) (ht : 0 ≤ t) (p : Nat) :
    pixelDiffers A A t p = false := by
  unfold pixelDiffers
  rw [List.any_eq_false]
  intro c _
  simp only [sub_self, abs_zero, decide_eq_true_eq, not_lt]
  exact mul_nonneg ht (by norm_num)

/-- Content of the compare_optimized.ts pad when the target strictly exceeds
the source in some axis: the copied top-left region reproduces the source
byte for byte, and every byte outside it is 255 (opaque white). -/
theorem padImage_content (img : ImageData) (tW tH : Nat)
    (hw : img.width ≤ tW) (hh : img.height ≤ tH)
    (hne : img.width < tW ∨ img.height < tH) :
    (∀ x y c, x < img.width → y < img.height → c < 4 →
      (padImage img tW tH).data ((tW * y + x) * 4 + c) =
        img.data ((img.width * y + x) * 4 + c)) ∧
    (∀ x y c, x < tW → y < tH → c < 4 → ¬(x < img.width ∧ y < img.height) →
      (padImage img tW tH).data ((tW * y + x) * 4 + c) = 255) := by
  have hcond : ¬(img.width = tW ∧ img.height = tH) := by omega
  constructor
  · intro x y c hx hy hc
    have hd := idx_decode tW y x c (by omega) hc
    simp only [padImage, if_neg hcond]
    simp only [hd.1, hd.2.1, hd.2.2]
    rw [if_pos ⟨hx, hy⟩]
  · intro x y c hx hy hc hout
    have hd := idx_decode tW y x c hx hc
    simp only [padImage, if_neg hcond]
    simp only [hd.1, hd.2.1, hd.2.2]
    rw [if_neg hout]

/-- Content of the compare.ts pad for target dimensions at least the source
dimensions: the copied region, centered at
`ox = (tW - width)/2, oy = (tH - height)/2`, reproduces the source byte for
byte, and every byte outside it is 0 — transparent black, not white. -/
theorem padImageTS_content (img : ImageData) (tW tH : Nat)
    (hw : img.width ≤ tW) (hh : img.height ≤ tH) :
    (∀ i j c, i < img.height → j < img.width → c < 4 →
      (padImageTS img tW tH).data
        ((tW * (i + (tH - img.height) / 2) + (j + (tW - img.width) / 2)) * 4 + c) =
        img.data ((img.width * i + j) * 4 + c)) ∧
    (∀ x y c, x < tW → y < tH → c < 4 →
      ¬((tW - img.width) / 2 ≤ x ∧ x < (tW - img.width) / 2 + img.width ∧
        (tH - img.height) / 2 ≤ y ∧ y < (tH - img.height) / 2 + img.height) →
      (padImageTS img tW tH).data ((tW * y + x) * 4 + c) = 0) := by
  have hox : (tW - img.width) / 2 + img.width ≤ tW := by omega
  have hoy : (tH - img.height) / 2 + img.height ≤ tH := by omega
  constructor
  · intro i j c hi hj hc
    have hd := idx_decode tW (i + (tH - img.height) / 2) (j + (tW - img.width) / 2) c
      (by omega) hc
    simp only [padImageTS]
    simp only [hd.1, hd.2.1, hd.2.2]
    rw [if_pos (by omega)]
    congr 1
    have h1 : i + (tH - img.height) / 2 - (tH - img.height) / 2 = i := by omega
    have h2 : j + (tW - img.width) / 2 - (tW - img.width) / 2 = j := by omega
    rw [h1, h2]
  · intro x y c hx hy hc hout
    have hd := idx_decode tW y x c hx hc
    simp only [padImageTS]
    simp only [hd.1, hd.2.1, hd.2.2]
    rw [if_neg (by omega)]

/-- A concrete 1-by-1 image used in counterexamples and witnesses. -/
def img1x1 : ImageData := { width := 1, height := 1, data := fun _ => 200 }

/-- A concrete 2-by-1 image used in counterexamples and witnesses. -/
def img2x1 : ImageData := { width := 2, height := 1, data := fun _ => 255 }

/-- The result record produced by a successful task carries the task's url. -/
theorem taskRun_url (u : String) (a1 a2 a3 : TaskAttempt) (r : OptComparisonResult)
    (h : taskRun u a1 a2 a3 = some r) : r.url = u := by
  cases a1 with
  | ok n d => simp only [taskRun, Option.some.injEq] at h; rw [← h]; rfl
  | err =>
    cases a2 with
    | ok n d => simp only [taskRun, Option.some.injEq] at h; rw [← h]; rfl
    | err =>
      cases a3 with
      | ok n d => simp only [taskRun, Option.some.injEq] at h; rw [← h]; rfl
      | err => simp [taskRun] at h

/-- The result record produced by a successful task satisfies
`isMatch = true` exactly when its pixel count is zero. -/
theorem taskRun_isMatch (u : String) (a1 a2 a3 : TaskAttempt) (r : OptComparisonResult)
    (h : taskRun u a1 a2 a3 = some r) : (r.isMatch = true ↔ r.diffPixels = 0) := by
  cases a1 with
  | ok n d => simp only [taskRun, Option.some.injEq] at h; rw [← h]; simp [mkOptResult]
  | err =>
    cases a2 with
    | ok n d => simp only [taskRun, Option.some.injEq] at h; rw [← h]; simp [mkOptResult]
    | err =>
      cases a3 with
      | ok n d => simp only [taskRun, Option.some.injEq] at h; rw [← h]; simp [mkOptResult]
      | err => simp [taskRun] at h

/-- With equal dimensions the compare.ts comparison reaches the differ and
reports its count. -/
theorem compareScreenshotsTS_eq_dims (i1 i2 : ImageData)
    (hw : i1.width = i2.width) (hh : i1.height = i2.height) :
    compareScreenshotsTS (.ok i1) (.ok i2) =
      { isDifferent := decide (0 < pmCount i1 i2 i1.width i1.height (1/10)),
        diffPixels := pmCount i1 i2 i1.width i1.height (1/10) } := by
  simp only [compareScreenshotsTS]
  have h1 : max i1.width i2.width = i1.width := by omega
  have h2 : max i1.height i2.height = i1.height := by omega
  rw [h1, h2]
  have hchk : pixelmatchChecked i1 i2 i1.width i1.height (1/10) =
      .ok (pmCount i1 i2 i1.width i1.height (1/10)) := by
    simp [pixelmatchChecked, ImageData.byteLength, hw, hh]
  rw [hchk]

/-- C1 counterexample: in compare.ts, a target whose dev navigation fails
gets a result with an error recorded while `isDifferent` stays `false` and
`diffPixels` stays `0`, so the claimed equivalence between the matched flag
and "count is 0 and no error" is violated. -/
theorem C1_counterexample :
    (processUrl "u" 0 0 false true true true (.ok img1x1) (.ok img1x1)).isDifferent = false ∧
    (processUrl "u" 0 0 false true true true (.ok img1x1) (.ok img1x1)).diffPixels = 0 ∧
    (processUrl "u" 0 0 false true true true (.ok img1x1) (.ok img1x1)).error =
      some "Failed to navigate to dev URL" ∧
    ¬(((processUrl "u" 0 0 false true true true (.ok img1x1) (.ok img1x1)).isDifferent = false) ↔
      ((processUrl "u" 0 0 false true true true (.ok img1x1) (.ok img1x1)).diffPixels = 0 ∧
       (processUrl "u" 0 0 false true true true (.ok img1x1) (.ok img1x1)).error = none)) := by
  refine ⟨rfl, rfl, rfl, ?_⟩
  intro hiff
  have h := hiff.mp rfl
  simp [processUrl] at h

/-- C1 (amended): the matched/isDifferent flag tracks "count is 0 and no
error" in compare_optimized.ts (whose results carry no error field: `match`
is `numDiffPixels === 0` and errored targets yield no result at all) and in
compare-screenshots.ts (whose error branch sets `diffPixels = Infinity`, so
`isDifferent = false` still coincides with `diffPixels = 0`); in compare.ts
the equivalence holds only on the fully successful path, with captures
succeeding and the two screenshots decoding to equal dimensions. -/
theorem C1_matched_iff_zero (u : String) (a1 a2 a3 : TaskAttempt)
    (r : OptComparisonResult) (hr : taskRun u a1 a2 a3 = some r)
    (dev prod : Except String ImageData)
    (url : String) (t1 t2 : Nat) (i1 i2 : ImageData)
    (hw : i1.width = i2.width) (hh : i1.height = i2.height) :
    (r.isMatch = true ↔ r.diffPixels = 0) ∧
    ((compareScreenshotsCS dev prod).isDifferent = false ↔
      (compareScreenshotsCS dev prod).diffPixels = JSNum.num 0) ∧
    ((processUrl url t1 t2 true true true true (.ok i1) (.ok i2)).error = none ∧
      ((processUrl url t1 t2 true true true true (.ok i1) (.ok i2)).isDifferent = false ↔
        (processUrl url t1 t2 true true true true (.ok i1) (.ok i2)).diffPixels = 0)) := by
  refine ⟨taskRun_isMatch u a1 a2 a3 r hr, ?_, ?_⟩
  · match dev, prod with
    | .ok j1, .ok j2 =>
      simp only [compareScreenshotsCS]
      rcases hchk : pixelmatchChecked (padImageCS j1 (max j1.width j2.width) (max j1.height j2.height))
        (padImageCS j2 (max j1.width j2.width) (max j1.height j2.height))
        (max j1.width j2.width) (max j1.height j2.height) (1/10) with n | e
      · simp_all
      · simp_all
    | .ok _, .error _ => simp [compareScreenshotsCS]
    | .error _, _ => simp [compareScreenshotsCS]
  · have hcmp := compareScreenshotsTS_eq_dims i1 i2 hw hh
    constructor
    · simp [processUrl]
    · simp only [processUrl, Bool.and_self, if_pos]
      rw [hcmp]
      simp

/-- Witness for C1_matched_iff_zero at concrete inputs. -/
theorem C1_matched_iff_zero_witness :
    ((mkOptResult "/x" 0 1).isMatch = true ↔ (mkOptResult "/x" 0 1).diffPixels = 0) ∧
    ((compareScreenshotsCS (.ok img1x1) (.ok img1x1)).isDifferent = false ↔
      (compareScreenshotsCS (.ok img1x1) (.ok img1x1)).diffPixels = JSNum.num 0) ∧
    ((processUrl "/x" 0 0 true true true true (.ok img1x1) (.ok img1x1)).error = none ∧
      ((processUrl "/x" 0 0 true true true true (.ok img1x1) (.ok img1x1)).isDifferent = false ↔
        (processUrl "/x" 0 0 true true true true (.ok img1x1) (.ok img1x1)).diffPixels = 0)) :=
  C1_matched_iff_zero "/x" (.ok 0 1) .err .err (mkOptResult "/x" 0 1) rfl
    (.ok img1x1) (.ok img1x1) "/x" 0 0 img1x1 img1x1 rfl rfl

/-- An attempt oracle under which every attempt of every target fails. -/
def allFailOracle : String → TaskAttempt × TaskAttempt × TaskAttempt :=
  fun _ => (.err, .err, .err)

/-- An attempt oracle under which the target "/a" fails all of its three
attempts while every other target succeeds on its first attempt with a zero
pixel count. -/
def failAOracle : String → TaskAttempt × TaskAttempt × TaskAttempt :=
  fun u => if u = "/a" then (.err, .err, .err) else (.ok 0 1, .err, .err)

/-- C2 counterexample: a run over one target whose capture fails on all
three attempts returns an empty result list — the failed target contributes
no entry, so `len(results) == len(targets)` fails. -/
theorem C2_counterexample :
    mainResults ["/a"] allFailOracle = [] ∧
    (mainResults ["/a"] allFailOracle).length ≠ (["/a"] : List String).length := by
  refine ⟨rfl, ?_⟩
  intro h
  simp [mainResults, allFailOracle, taskRun] at h

/-- C2 (amended): the run returns exactly one result per target whose task
succeeded on some attempt, in input order (the result urls are precisely the
filtered input urls, so there are no duplicates and no reordering); a target
failing all three attempts contributes no entry, so the result list length
is the number of succeeding targets, at most the number of targets, with
equality when every target succeeds. -/
theorem C2_one_result_per_successful_target (urls : List String)
    (oracle : String → TaskAttempt × TaskAttempt × TaskAttempt) :
    (mainResults urls oracle).map (fun r => r.url) =
      urls.filter (fun u => (taskRun u (oracle u).1 (oracle u).2.1 (oracle u).2.2).isSome) ∧
    (mainResults urls oracle).length =
      urls.countP (fun u => (taskRun u (oracle u).1 (oracle u).2.1 (oracle u).2.2).isSome) ∧
    (mainResults urls oracle).length ≤ urls.length := by
  have hmap : (mainResults urls oracle).map (fun r => r.url) =
      urls.filter (fun u => (taskRun u (oracle u).1 (oracle u).2.1 (oracle u).2.2).isSome) := by
    induction urls with
    | nil => rfl
    | cons u us ih =>
      rcases h : taskRun u (oracle u).1 (oracle u).2.1 (oracle u).2.2 with _ | r
      · simpa [mainResults, List.filter_cons, h] using ih
      · have hurl := taskRun_url u (oracle u).1 (oracle u).2.1 (oracle u).2.2 r h
        simpa [mainResults, List.filter_cons, h, hurl] using ih
  refine ⟨hmap, ?_, ?_⟩
  · have := congrArg List.length hmap
    simpa [← List.countP_eq_length_filter] using this
  · have := congrArg List.length hmap
    simp only [List.length_map] at this
    rw [this]
    exact List.length_filter_le _ _

/-- C3 counterexample: a target ("/a") whose capture fails on all three
retry attempts produces no result at all — no entry carrying the last error
and matched=false exists — even though the sibling target "/b" is still
processed. -/
theorem C3_counterexample :
    taskRun "/a" .err .err .err = none ∧
    (mainResults ["/a", "/b"] failAOracle).map (fun r => r.url) = ["/b"] ∧
    "/a" ∉ (mainResults ["/a", "/b"] failAOracle).map (fun r => r.url) := by
  refine ⟨rfl, by decide, by decide⟩

/-- C3 (amended): the run indeed does not abort — a target failing all three
attempts returns null from its task, and the results of the targets before
and after it are unaffected — but the failed target contributes no result,
so nothing carries its last error or a matched=false flag. -/
theorem C3_no_abort_but_no_result (us vs : List String) (u s : String)
    (oracle : String → TaskAttempt × TaskAttempt × TaskAttempt)
    (h : taskRun u (oracle u).1 (oracle u).2.1 (oracle u).2.2 = none) :
    mainResults (us ++ u :: vs) oracle = mainResults us oracle ++ mainResults vs oracle ∧
    taskRun s .err .err .err = none := by
  constructor
  · simp [mainResults, List.map_append, List.reduceOption_append, h, List.reduceOption_cons_of_none]
  · rfl

/-- Witness for C3_no_abort_but_no_result at concrete inputs. -/
theorem C3_no_abort_but_no_result_witness :
    (mainResults (["/b"] ++ "/a" :: ["/c"]) failAOracle =
      mainResults ["/b"] failAOracle ++ mainResults ["/c"] failAOracle) ∧
    taskRun "/a" TaskAttempt.err TaskAttempt.err TaskAttempt.err = none :=
  C3_no_abort_but_no_result ["/b"] ["/c"] "/a" "/a" failAOracle rfl

/-- C4 counterexample: the error branch of compareScreenshots in
compare-screenshots.ts resolves with `diffPixels = Infinity`, which is not a
non-negative integer; and the error branch of compareScreenshots in
compare.ts yields `diffPixels = 0` for two images that were never
successfully compared (here: images of different dimensions), so a count of
0 does not mean the images are identical there. -/
theorem C4_counterexample :
    (compareScreenshotsCS (.error "Unsupported image format: .gif") (.ok img1x1)).diffPixels =
      JSNum.inf ∧
    JSNum.inf ≠ JSNum.num 0 ∧
    (compareScreenshotsTS (.ok img1x1) (.ok img2x1)).diffPixels = 0 ∧
    img1x1 ≠ img2x1 := by
  refine ⟨rfl, by decide, rfl, ?_⟩
  intro h
  have := congrArg ImageData.width h
  simp [img1x1, img2x1] at this

/-- C4 (amended): on every successful path the count is a natural number
(`JSNum.num`), and a zero count means exactly that no pixel position is
classified as different under the threshold; only the error branch of
compare-screenshots.ts produces Infinity, and the error branch of compare.ts
produces 0 without a comparison. -/
theorem C4_count_integer_on_success :
    (∀ i1 i2 : ImageData, (compareScreenshotsCS (.ok i1) (.ok i2)).diffPixels =
      JSNum.num (pmCount (padImageCS i1 (max i1.width i2.width) (max i1.height i2.height))
        (padImageCS i2 (max i1.width i2.width) (max i1.height i2.height))
        (max i1.width i2.width) (max i1.height i2.height) (1/10))) ∧
    (∀ (A B : ImageData) (w h : Nat) (t : ℚ),
      pmCount A B w h t = 0 ↔ ∀ p ∈ List.range (w * h), pixelDiffers A B t p = false) ∧
    (∀ (e : String) (d : Except String ImageData),
      (compareScreenshotsCS (.error e) d).diffPixels = JSNum.inf) := by
  refine ⟨?_, ?_, ?_⟩
  · intro i1 i2
    have h1 := padImageCS_dims i1 (max i1.width i2.width) (max i1.height i2.height)
    have h2 := padImageCS_dims i2 (max i1.width i2.width) (max i1.height i2.height)
    simp only [compareScreenshotsCS]
    have hchk : pixelmatchChecked
        (padImageCS i1 (max i1.width i2.width) (max i1.height i2.height))
        (padImageCS i2 (max i1.width i2.width) (max i1.height i2.height))
        (max i1.width i2.width) (max i1.height i2.height) (1/10) =
        .ok (pmCount (padImageCS i1 (max i1.width i2.width) (max i1.height i2.height))
          (padImageCS i2 (max i1.width i2.width) (max i1.height i2.height))
          (max i1.width i2.width) (max i1.height i2.height) (1/10)) := by
      simp [pixelmatchChecked, ImageData.byteLength, h1.1, h1.2, h2.1, h2.2]
    rw [hchk]
  · intro A B w h t
    unfold pmCount
    rw [List.countP_eq_zero]
    constructor
    · intro hz p hp
      simpa using hz p hp
    · intro hz p hp
      simpa using hz p hp
  · intro e d
    cases d <;> rfl

/-- C5 counterexample: the compare.ts pad of a 1-by-1 image onto a 3-by-1
canvas (target strictly larger in one axis, at least as large in the other)
leaves the pixel at position (0,0) — outside the centered copied region —
with value 0 in its red channel, not the claimed opaque white 255. -/
theorem C5_counterexample :
    (padImageTS img1x1 3 1).data 0 = 0 ∧ (padImageTS img1x1 3 1).data 0 ≠ 255 := by
  exact ⟨rfl, by decide⟩

/-- C5 (amended): for target dimensions at least the source and strictly
larger in some axis, the compare_optimized.ts pad fills every pixel outside
the copied region with opaque white (255 in all four channels) and copies
the source pixel-for-pixel at the top-left anchor; the compare.ts pad copies
the source pixel-for-pixel at the centered anchor but leaves every pixel
outside the copied region transparent black (0 in all four channels), not
white. -/
theorem C5_pad_content (img : ImageData) (tW tH : Nat)
    (hw : img.width ≤ tW) (hh : img.height ≤ tH)
    (hne : img.width < tW ∨ img.height < tH) :
    ((∀ x y c, x < img.width → y < img.height → c < 4 →
      (padImage img tW tH).data ((tW * y + x) * 4 + c) =
        img.data ((img.width * y + x) * 4 + c)) ∧
    (∀ x y c, x < tW → y < tH → c < 4 → ¬(x < img.width ∧ y < img.height) →
      (padImage img tW tH).data ((tW * y + x) * 4 + c) = 255)) ∧
    ((∀ i j c, i < img.height → j < img.width → c < 4 →
      (padImageTS img tW tH).data
        ((tW * (i + (tH - img.height) / 2) + (j + (tW - img.width) / 2)) * 4 + c) =
        img.data ((img.width * i + j) * 4 + c)) ∧
    (∀ x y c, x < tW → y < tH → c < 4 →
      ¬((tW - img.width) / 2 ≤ x ∧ x < (tW - img.width) / 2 + img.width ∧
        (tH - img.height) / 2 ≤ y ∧ y < (tH - img.height) / 2 + img.height) →
      (padImageTS img tW tH).data ((tW * y + x) * 4 + c) = 0)) :=
  ⟨padImage_content img tW tH hw hh hne, padImageTS_content img tW tH hw hh⟩

/-- Witness for C5_pad_content at a concrete image and target, read off at
concrete pixels: the copied pixel and a white background pixel of the
compare_optimized.ts pad, and the copied pixel and a zero background pixel
of the compare.ts pad. -/
theorem C5_pad_content_witness :
    (padImage img1x1 3 1).data ((3 * 0 + 0) * 4 + 0) =
      img1x1.data ((img1x1.width * 0 + 0) * 4 + 0) ∧
    (padImage img1x1 3 1).data ((3 * 0 + 1) * 4 + 0) = 255 ∧
    (padImageTS img1x1 3 1).data
      ((3 * (0 + (1 - img1x1.height) / 2) + (0 + (3 - img1x1.width) / 2)) * 4 + 0) =
      img1x1.data ((img1x1.width * 0 + 0) * 4 + 0) ∧
    (padImageTS img1x1 3 1).data ((3 * 0 + 0) * 4 + 0) = 0 :=
  have h := C5_pad_content img1x1 3 1 (by decide) (by decide) (Or.inl (by decide))
  ⟨h.1.1 0 0 0 (by decide) (by decide) (by decide),
   h.1.2 1 0 0 (by decide) (by decide) (by decide) (by decide),
   h.2.1 0 0 0 (by decide) (by decide) (by decide),
   h.2.2 0 0 0 (by decide) (by decide) (by decide) (by decide)⟩

/-- C6 counterexample: compare.ts invokes the differ on the two raw decoded
images without padding them; for a 1-by-1 and a 2-by-1 image the operands'
buffer lengths differ (4 versus 8 bytes), the differ's size check fails, and
the swallowed error is reported as `isDifferent = true, diffPixels = 0`. -/
theorem C6_counterexample :
    img1x1.byteLength ≠ img2x1.byteLength ∧
    pixelmatchChecked img1x1 img2x1 (max img1x1.width img2x1.width)
      (max img1x1.height img2x1.height) (1/10) = .error "Image sizes do not match." ∧
    compareScreenshotsTS (.ok img1x1) (.ok img2x1) =
      { isDifferent := true, diffPixels := 0 } := by
  exact ⟨by decide, rfl, rfl⟩

/-- C6 (amended): in compare_optimized.ts both operands are padded to the
elementwise maximum of the two images' dimensions before diffing, so the
differ always receives equal-sized buffers and succeeds; in compare.ts no
padding happens — the raw decoded images are passed with the maximum
dimensions, and whenever their buffer sizes differ the differ is invoked on
unequal-sized buffers, its error being swallowed into
`isDifferent = true, diffPixels = 0`. -/
theorem C6_differ_operand_dims (i1 i2 : ImageData)
    (hne : i1.byteLength ≠ i2.byteLength) :
    ((padImage i1 (max i1.width i2.width) (max i1.height i2.height)).width =
        max i1.width i2.width ∧
      (padImage i1 (max i1.width i2.width) (max i1.height i2.height)).height =
        max i1.height i2.height ∧
      (padImage i2 (max i1.width i2.width) (max i1.height i2.height)).width =
        max i1.width i2.width ∧
      (padImage i2 (max i1.width i2.width) (max i1.height i2.height)).height =
        max i1.height i2.height ∧
      compareScreenshotsOpt i1 i2 =
        .ok (pmCount (padImage i1 (max i1.width i2.width) (max i1.height i2.height))
          (padImage i2 (max i1.width i2.width) (max i1.height i2.height))
          (max i1.width i2.width) (max i1.height i2.height) (1/10))) ∧
    (pixelmatchChecked i1 i2 (max i1.width i2.width) (max i1.height i2.height) (1/10) =
        .error "Image sizes do not match." ∧
      compareScreenshotsTS (.ok i1) (.ok i2) = { isDifferent := true, diffPixels := 0 }) := by
  have h1 := padImage_dims i1 (max i1.width i2.width) (max i1.height i2.height)
  have h2 := padImage_dims i2 (max i1.width i2.width) (max i1.height i2.height)
  have hchkTS : pixelmatchChecked i1 i2 (max i1.width i2.width)
      (max i1.height i2.height) (1/10) = .error "Image sizes do not match." := by
    simp [pixelmatchChecked, hne]
  refine ⟨⟨h1.1, h1.2, h2.1, h2.2, ?_⟩, hchkTS, ?_⟩
  · simp only [compareScreenshotsOpt]
    simp [pixelmatchChecked, ImageData.byteLength, h1.1, h1.2, h2.1, h2.2]
  · simp only [compareScreenshotsTS]
    rw [hchkTS]

/-- Witness for C6_differ_operand_dims at concrete images of unequal size. -/
theorem C6_differ_operand_dims_witness :
    ((padImage img1x1 (max img1x1.width img2x1.width) (max img1x1.height img2x1.height)).width =
        max img1x1.width img2x1.width ∧
      (padImage img1x1 (max img1x1.width img2x1.width) (max img1x1.height img2x1.height)).height =
        max img1x1.height img2x1.height ∧
      (padImage img2x1 (max img1x1.width img2x1.width) (max img1x1.height img2x1.height)).width =
        max img1x1.width img2x1.width ∧
      (padImage img2x1 (max img1x1.width img2x1.width) (max img1x1.height img2x1.height)).height =
        max img1x1.height img2x1.height ∧
      compareScreenshotsOpt img1x1 img2x1 =
        .ok (pmCount (padImage img1x1 (max img1x1.width img2x1.width) (max img1x1.height img2x1.height))
          (padImage img2x1 (max img1x1.width img2x1.width) (max img1x1.height img2x1.height))
          (max img1x1.width img2x1.width) (max img1x1.height img2x1.height) (1/10))) ∧
    (pixelmatchChecked img1x1 img2x1 (max img1x1.width img2x1.width)
        (max img1x1.height img2x1.height) (1/10) = .error "Image sizes do not match." ∧
      compareScreenshotsTS (.ok img1x1) (.ok img2x1) =
        { isDifferent := true, diffPixels := 0 }) :=
  C6_differ_operand_dims img1x1 img2x1 (by decide)

/-- C7: the code computes `sum / results.length` with no guard; over an
empty result set (total == 0, reachable when every target fails all its
attempts) JavaScript evaluates 0/0 to NaN, not the 0 the spec defines; for
non-empty result sets the average is the sum divided by the count as
claimed. -/
theorem C7_avg_empty_is_nan :
    avgDuration [] = JSVal.nan ∧
    JSVal.nan ≠ JSVal.num 0 ∧
    (∀ (d : ℚ) (l : List ℚ),
      avgDuration (d :: l) = JSVal.num ((d :: l).sum / ((d :: l).length : ℚ))) := by
  refine ⟨rfl, by decide, ?_⟩
  intro d l
  have hlen : ((l.length : ℚ) + 1) ≠ 0 := by positivity
  simp [avgDuration, jsDiv, hlen]

/-- C8: diffing any image against itself yields a zero differing-pixel
count for every non-negative threshold (spec-modelled differ), and the
compare-screenshots.ts pipeline on two identical decoded screenshots
reports a match with a zero count. -/
theorem C8_diff_identity (A : ImageData) (w h : Nat) (t : ℚ) (ht : 0 ≤ t) :
    pmCount A A w h t = 0 ∧
    compareScreenshotsCS (.ok A) (.ok A) =
      { isDifferent := false, diffPixels := JSNum.num 0 } := by
  have hzero : ∀ (w' h' : Nat) (t' : ℚ), 0 ≤ t' → pmCount A A w' h' t' = 0 := by
    intro w' h' t' ht'
    unfold pmCount
    rw [List.countP_eq_zero]
    intro p _
    simp [pixelDiffers_self A t' ht' p]
  refine ⟨hzero w h t ht, ?_⟩
  simp only [compareScreenshotsCS, Nat.max_self]
  have hpad : padImageCS A A.width A.height = A := by
    simp [padImageCS]
  rw [hpad]
  have hchk : pixelmatchChecked A A A.width A.height (1/10) =
      .ok (pmCount A A A.width A.height (1/10)) := by
    simp [pixelmatchChecked, ImageData.byteLength]
  rw [hchk, hzero A.width A.height (1/10) (by norm_num)]
  rfl

/-- Witness for C8_diff_identity at a concrete image and threshold. -/
theorem C8_diff_identity_witness :
    pmCount img1x1 img1x1 1 1 0 = 0 ∧
    compareScreenshotsCS (.ok img1x1) (.ok img1x1) =
      { isDifferent := false, diffPixels := JSNum.num 0 } :=
  C8_diff_identity img1x1 1 1 0 (by norm_num)

theorem schedLoop_cons (f : Nat → α) (limit : Nat) (oracle : Nat → Nat)
    (t : Nat) (ts : List Nat) (e : List Nat) (log : List (Nat × α)) (k : Nat) :
    schedLoop f limit oracle (t :: ts) e log k =
      if limit ≤ (e ++ [t]).length then
        ((e ++ [t]) :: removeNth (e ++ [t]) (oracle k % (e ++ [t]).length) ::
          (schedLoop f limit oracle ts (removeNth (e ++ [t]) (oracle k % (e ++ [t]).length))
            (log ++ [((e ++ [t]).getD (oracle k % (e ++ [t]).length) 0,
              f ((e ++ [t]).getD (oracle k % (e ++ [t]).length) 0))]) (k + 1)).1,
         (schedLoop f limit oracle ts (removeNth (e ++ [t]) (oracle k % (e ++ [t]).length))
            (log ++ [((e ++ [t]).getD (oracle k % (e ++ [t]).length) 0,
              f ((e ++ [t]).getD (oracle k % (e ++ [t]).length) 0))]) (k + 1)).2)
      else
        ((e ++ [t]) :: (schedLoop f limit oracle ts (e ++ [t]) log k).1,
         (schedLoop f limit oracle ts (e ++ [t]) log k).2) := by
  rw [schedLoop]

/-- C9: at every point of a run over any task list and any limit at least 1
(the callers fix 5), the executing pool recorded in the trace never exceeds
the limit; and when the pool is full and tasks remain, the dispatch of the
next task follows a single completion — the trace goes full pool, pool minus
exactly one completed task, then that same pool with the next task appended —
so a queued task is dispatched as soon as one running task completes, with
the other limit-1 tasks still in flight (no wave barrier). -/
theorem C9_pool_bounded_and_immediate_dispatch (f : Nat → α) (n limit : Nat)
    (oracle : Nat → Nat) (hlim : 1 ≤ limit) :
    (∀ x ∈ schedTrace f n limit oracle, x.length ≤ limit) ∧
    (∀ (t t' : Nat) (ts : List Nat) (e : List Nat) (log : List (Nat × α)) (k : Nat),
      limit ≤ (e ++ [t]).length →
      ∃ rest,
        (schedLoop f limit oracle (t :: t' :: ts) e log k).1 =
          (e ++ [t]) :: removeNth (e ++ [t]) (oracle k % (e ++ [t]).length) ::
            (removeNth (e ++ [t]) (oracle k % (e ++ [t]).length) ++ [t']) :: rest ∧
        (removeNth (e ++ [t]) (oracle k % (e ++ [t]).length)).length + 1 =
          (e ++ [t]).length) := by
  constructor
  · intro x hx
    exact schedLoop_pools_le f limit oracle (List.range n) [] [] 0 (by simp; omega) x hx
  · intro t t' ts e log k hfull
    have hi : oracle k % (e ++ [t]).length < (e ++ [t]).length := Nat.mod_lt _ (by simp)
    have hlen := removeNth_length (e ++ [t]) (oracle k % (e ++ [t]).length) hi
    rw [schedLoop_cons, if_pos hfull, schedLoop_cons]
    by_cases h2 : limit ≤
        (removeNth (e ++ [t]) (oracle k % (e ++ [t]).length) ++ [t']).length
    · rw [if_pos h2]
      exact ⟨_, rfl, hlen⟩
    · rw [if_neg h2]
      exact ⟨_, rfl, hlen⟩

/-- Witness for C9_pool_bounded_and_immediate_dispatch at a concrete run of
3 tasks with limit 2 and a constant completion oracle, the bound read off as
a closed boolean check over the trace and the dispatch property instantiated
at a full pool. -/
theorem C9_pool_bounded_witness :
    ((schedTrace (fun i : Nat => i) 3 2 (fun _ => 0)).all
      fun x => decide (x.length ≤ 2)) = true ∧
    (∃ rest,
      (schedLoop (fun i : Nat => i) 2 (fun _ => 0) (1 :: 2 :: []) [0] [] 0).1 =
        ([0] ++ [1]) :: removeNth ([0] ++ [1]) (0 % ([0] ++ [1]).length) ::
          (removeNth ([0] ++ [1]) (0 % ([0] ++ [1]).length) ++ [2]) :: rest ∧
      (removeNth ([0] ++ [1]) (0 % ([0] ++ [1]).length)).length + 1 =
        ([0] ++ [1]).length) := by
  have h := C9_pool_bounded_and_immediate_dispatch (fun i : Nat => i) 3 2 (fun _ => 0)
    (by norm_num)
  refine ⟨?_, h.2 1 2 [] [0] [] 0 (by decide)⟩
  rw [List.all_eq_true]
  intro x hx
  simpa using h.1 x hx

/-- C10: for every task list, every limit and every completion order, the
list returned by the scheduler preserves input order: its i-th element is
the i-th task's value (each promise was pushed in input order and resolves
with its own task's result, and every task completes exactly once). -/
theorem C10_scheduler_preserves_input_order (n limit : Nat) (f : Nat → α)
    (oracle : Nat → Nat) :
    schedResults f n limit oracle = (List.range n).map fun i => some (f i) := by
  obtain ⟨tail, heq, hperm, hval⟩ := schedLoop_log f limit oracle (List.range n) [] [] 0
  unfold schedResults
  rw [heq]
  apply List.map_congr_left
  intro i hi
  apply lookupLog_eq f i _ (by simpa using hval)
  have : i ∈ (List.range n) ++ ([] : List Nat) := by simpa using hi
  exact (hperm.mem_iff).mpr this

end VisualCompare
